import Mathlib

/-!
Shallow embedding of `src/main.py` (tarodo/avg_salary).

Conventions of the embedding:
* A Python dict field is a `PyField α`: the key may be absent (access raises
  `KeyError`), present with value `None`, or present with a value.
* Python exceptions are the `PyErr` error type of an `Except PyErr` result:
  `KeyError` from a missing dict key, `ZeroDivisionError` from `x / 0`.
* Python's `int(e)` applied to a float expression is modelled in exact
  rational arithmetic as truncation toward zero (`Int.tdiv` for a quotient
  of integers); the salary constants `0.8 = 4/5`, `1.2 = 6/5` are exact.
* Network I/O of a fetcher is modelled by a script: the list of parsed
  response bodies the server returns for a term, consumed one per request;
  a fetch that needs more requests than the script provides yields `none`.
* A Python dict used as a mapping (the ResultSet) is an association list in
  insertion order; assignment to an existing key updates it in place
  (`dictInsert`), as Python dicts do.
-/

inductive PyErr where
  | keyError : PyErr
  | zeroDivisionError : PyErr
  deriving Repr, DecidableEq

/-- One field of a Python dict: the key can be absent, present with `None`,
or present with a value. -/
inductive PyField (α : Type) where
  | absent : PyField α
  | null : PyField α
  | val : α → PyField α
  deriving Repr, DecidableEq

/-- `d["k"]`: raises `KeyError` when the key is absent, otherwise yields the
stored value (`none` models Python's `None`). -/
def PyField.get {α : Type} : PyField α → Except PyErr (Option α)
  | .absent => .error .keyError
  | .null => .ok none
  | .val a => .ok (some a)

/-- The salary sub-dict of a HeadHunter vacancy: keys `currency`, `from`,
`to` (`from` is a Lean keyword, hence the `salary_` prefix). -/
structure HHSalary where
  currency : PyField String
  salary_from : PyField Int
  salary_to : PyField Int
  deriving Repr, DecidableEq

/-- An empty dict is falsy in Python (`if not salary`). -/
def HHSalary.isEmpty (s : HHSalary) : Bool :=
  match s.currency, s.salary_from, s.salary_to with
  | .absent, .absent, .absent => true
  | _, _, _ => false

/-- A HeadHunter vacancy record; the code only touches `vacancy["salary"]`,
whose value is itself a dict or `None`. -/
structure HHVacancy where
  salary : PyField HHSalary
  deriving Repr, DecidableEq

/-- A SuperJob vacancy record; the code touches `payment_from` and
`payment_to`. The `currency` key is part of the upstream schema but is
never read by `predict_sj_rub_salary`. -/
structure SJVacancy where
  currency : PyField String
  payment_from : PyField Int
  payment_to : PyField Int
  deriving Repr, DecidableEq

/-- Python truthiness of an optional integer: `None` and `0` are falsy. -/
def falsyInt : Option Int → Bool
  | none => true
  | some n => n = 0

/-- `predict_hh_rub_salary` (src/main.py:104-117).
`int(to * 0.8)` is `(4*to).div 5`, `int(from * 1.2)` is `(6*from).div 5`,
and `int(from + (to - from) / 2)` is `(from + to).div 2` in exact
arithmetic (`Int.tdiv` truncates toward zero, as Python's `int` does). -/
def predict_hh_rub_salary (v : HHVacancy) : Except PyErr (Option Int) :=
  match v.salary with
  | .absent => .error .keyError
  | .null => .ok none
  | .val s =>
    if s.isEmpty then .ok none
    else
      match PyField.get s.currency with
      | .error e => .error e
      | .ok c =>
        if c ≠ some "RUR" then .ok none
        else
          match PyField.get s.salary_from with
          | .error e => .error e
          | .ok none =>
            match PyField.get s.salary_to with
            | .error e => .error e
            | .ok none => .ok none
            | .ok (some hi) => .ok (some (Int.tdiv (4 * hi) 5))
          | .ok (some lo) =>
            match PyField.get s.salary_to with
            | .error e => .error e
            | .ok none => .ok (some (Int.tdiv (6 * lo) 5))
            | .ok (some hi) => .ok (some (Int.tdiv (lo + hi) 2))

/-- `predict_sj_rub_salary` (src/main.py:120-130). Bounds are tested with
Python truthiness (`if not vacancy["payment_from"]`), so `0` counts as
not provided. -/
def predict_sj_rub_salary (v : SJVacancy) : Except PyErr (Option Int) :=
  match PyField.get v.payment_from with
  | .error e => .error e
  | .ok pf =>
    if falsyInt pf then
      match PyField.get v.payment_to with
      | .error e => .error e
      | .ok pt =>
        if falsyInt pt then .ok none
        else .ok (some (Int.tdiv (4 * pt.getD 0) 5))
    else
      match PyField.get v.payment_to with
      | .error e => .error e
      | .ok pt =>
        if falsyInt pt then .ok (some (Int.tdiv (6 * pf.getD 0) 5))
        else .ok (some (Int.tdiv (pf.getD 0 + pt.getD 0) 2))

/-- One term's entry in a ResultSet: `{"items": [...], "found": n}`. -/
structure LangVacancies (α : Type) where
  items : List α
  found : Nat
  deriving Repr, DecidableEq

/-- One term's entry in the aggregated statistics. -/
structure LangStat where
  vacancies_found : Nat
  vacancies_processed : Nat
  average_salary : Int
  deriving Repr, DecidableEq

/-- The inner loop of `collect_average_salary` (src/main.py:145-149):
runs the predictor over the items, accumulating `sum_salary` and
`salary_num`; a predictor exception propagates. -/
def processItems {α : Type} (predictor : α → Except PyErr (Option Int)) :
    List α → Int → Nat → Except PyErr (Int × Nat)
  | [], sumSalary, salaryNum => .ok (sumSalary, salaryNum)
  | v :: rest, sumSalary, salaryNum =>
    match predictor v with
    | .error e => .error e
    | .ok (some s) => processItems predictor rest (sumSalary + s) (salaryNum + 1)
    | .ok none => processItems predictor rest sumSalary salaryNum

/-- `collect_average_salary` (src/main.py:133-153). The average is
`int(sum_salary / salary_num)`: truncated exact division when
`salary_num > 0`, and a `ZeroDivisionError` when `salary_num == 0`. -/
def collect_average_salary {α : Type}
    (vacancies : List (String × LangVacancies α))
    (predictor : α → Except PyErr (Option Int)) :
    Except PyErr (List (String × LangStat)) :=
  match vacancies with
  | [] => .ok []
  | (language, languageVacancies) :: rest =>
    match processItems predictor languageVacancies.items 0 0 with
    | .error e => .error e
    | .ok (sumSalary, salaryNum) =>
      if salaryNum = 0 then .error .zeroDivisionError
      else
        match collect_average_salary rest predictor with
        | .error e => .error e
        | .ok restStats =>
          .ok ((language,
            (⟨languageVacancies.found, salaryNum,
              Int.tdiv sumSalary salaryNum⟩ : LangStat)) :: restStats)

/-- A parsed HeadHunter search response: the code reads `pages` and
`items`; `found` (the reported total match count) is in the schema but is
never read by `get_all_hh_vacancies`. -/
structure HHResponse (α : Type) where
  found : Nat
  pages : Nat
  items : List α
  deriving Repr, DecidableEq

/-- A parsed SuperJob search response: the code reads `more` and
`objects`; `total` (the reported total match count) is never read. -/
structure SJResponse (α : Type) where
  total : Nat
  more : Bool
  objects : List α
  deriving Repr, DecidableEq

/-- The `while page < pages` loop of `get_all_hh_vacancies`
(src/main.py:59-67), driven by a script of responses. Each iteration
re-reads `pages` from the response, appends its items, adds their count to
`found` and increments `page`; `none` means the script ran out while the
loop still wanted a response. -/
def hhFetchLoop {α : Type} (script : List (HHResponse α)) (page pages : Nat)
    (accItems : List α) (accFound : Nat) : Option (List α × Nat) :=
  if page < pages then
    match script with
    | [] => none
    | r :: rest =>
      hhFetchLoop rest (page + 1) r.pages (accItems ++ r.items)
        (accFound + r.items.length)
  else
    some (accItems, accFound)

/-- The `while is_more` loop of `get_all_sj_vacancies` (src/main.py:86-99).
The last component counts the requests actually issued, to state the
continuation property. -/
def sjFetchLoop {α : Type} (script : List (SJResponse α)) (isMore : Bool)
    (page : Nat) (accItems : List α) (accFound : Nat) (calls : Nat) :
    Option (List α × Nat × Nat) :=
  if isMore then
    match script with
    | [] => none
    | r :: rest =>
      sjFetchLoop rest r.more (page + 1) (accItems ++ r.objects)
        (accFound + r.objects.length) (calls + 1)
  else
    some (accItems, accFound, calls)

/-- Python dict assignment `d[k] = v`: update in place when the key exists,
append otherwise. -/
def dictInsert {β : Type} (d : List (String × β)) (k : String) (v : β) :
    List (String × β) :=
  match d with
  | [] => [(k, v)]
  | (k2, v2) :: rest =>
    if k2 = k then (k, v) :: rest else (k2, v2) :: dictInsert rest k v

/-- The per-language loop of `get_all_hh_vacancies` (src/main.py:53-67):
each language starts with `items = []`, `found = 0`, `page = 0`,
`pages = 1`. -/
def hhFetchLanguages {α : Type} (script : String → List (HHResponse α)) :
    List String → List (String × LangVacancies α) →
    Option (List (String × LangVacancies α))
  | [], acc => some acc
  | language :: rest, acc =>
    match hhFetchLoop (script language) 0 1 [] 0 with
    | none => none
    | some (items, found) =>
      hhFetchLanguages script rest (dictInsert acc language ⟨items, found⟩)

/-- `get_all_hh_vacancies` (src/main.py:48-69), with the network modelled
by a script mapping each language to the response bodies the server
returns for it, in request order. -/
def get_all_hh_vacancies {α : Type} (script : String → List (HHResponse α))
    (hhLanguages : List String) : Option (List (String × LangVacancies α)) :=
  hhFetchLanguages script hhLanguages []

/-- The per-language loop of `get_all_sj_vacancies` (src/main.py:79-99):
each language starts with `items = []`, `found = 0`, `is_more = True`,
`page = 0`. -/
def sjFetchLanguages {α : Type} (script : String → List (SJResponse α)) :
    List String → List (String × LangVacancies α) →
    Option (List (String × LangVacancies α))
  | [], acc => some acc
  | language :: rest, acc =>
    match sjFetchLoop (script language) true 0 [] 0 0 with
    | none => none
    | some (items, found, _calls) =>
      sjFetchLanguages script rest (dictInsert acc language ⟨items, found⟩)

/-- `get_all_sj_vacancies` (src/main.py:72-101), with the network modelled
by a script. -/
def get_all_sj_vacancies {α : Type} (script : String → List (SJResponse α))
    (sjLanguages : List String) : Option (List (String × LangVacancies α)) :=
  sjFetchLanguages script sjLanguages []

/-- The estimates the predictor defines on a list of items, in order; its
length is the number of processed listings and its sum the salary total,
provided the predictor raises on none of the items. -/
def definedEstimates {α : Type} (predictor : α → Except PyErr (Option Int))
    (items : List α) : List Int :=
  items.filterMap fun v =>
    match predictor v with
    | .ok (some s) => some s
    | _ => none

/-- Spec-side description of one aggregated entry: the key is the term, the
found count is copied verbatim, the processed count is the number of
listings with a defined estimate (hence at most the number of items), and
a positive processed count makes the average the truncated mean of the
defined estimates. -/
def StatMatches {α : Type} (predictor : α → Except PyErr (Option Int))
    (entry : String × LangVacancies α) (stat : String × LangStat) : Prop :=
  stat.1 = entry.1 ∧
  stat.2.vacancies_found = entry.2.found ∧
  stat.2.vacancies_processed = (definedEstimates predictor entry.2.items).length ∧
  stat.2.vacancies_processed ≤ entry.2.items.length ∧
  (0 < stat.2.vacancies_processed →
    stat.2.average_salary =
      Int.tdiv (definedEstimates predictor entry.2.items).sum
        (stat.2.vacancies_processed : Int))

/-- A HeadHunter listing carrying the keys the code dereferences: the
`salary` key, and — when salary is a dict — the `currency`, `from`, `to`
keys inside it. -/
def HHHasExpectedKeys (v : HHVacancy) : Prop :=
  match v.salary with
  | .absent => False
  | .null => True
  | .val s =>
    s.currency ≠ .absent ∧ s.salary_from ≠ .absent ∧ s.salary_to ≠ .absent

/-- A SuperJob listing carrying the `payment_from` and `payment_to` keys. -/
def SJHasExpectedKeys (v : SJVacancy) : Prop :=
  v.payment_from ≠ .absent ∧ v.payment_to ≠ .absent

/-- Scenario listing: HeadHunter, RUR, salary from 1000 to 2000. -/
def rurVac : HHVacancy := ⟨.val ⟨.val "RUR", .val 1000, .val 2000⟩⟩

/-- Scenario listing: HeadHunter, USD, salary from 500 to 600. -/
def usdVac : HHVacancy := ⟨.val ⟨.val "USD", .val 500, .val 600⟩⟩

/-- Platform-A continuation scenario: every response declares `pages = 3`;
the pages return 100, 100 and 37 listings; a fourth response is available
but must not be requested. -/
def hhContinuationScript : List (HHResponse Nat) :=
  [⟨1000, 3, List.replicate 100 0⟩, ⟨1000, 3, List.replicate 100 0⟩,
   ⟨1000, 3, List.replicate 37 0⟩, ⟨1000, 3, List.replicate 50 0⟩]

/-- Platform-B continuation scenario: `more` flags `true, true, false`; a
fourth response is available but must not be requested. -/
def sjContinuationScript : List (SJResponse Nat) :=
  [⟨9, true, [0]⟩, ⟨9, true, [0, 0]⟩, ⟨9, false, [0]⟩, ⟨9, true, [0]⟩]

lemma tdiv_natCast_eq_floor (n : Int) (d : Nat) (hn : 0 ≤ n) :
    Int.tdiv n (d : Int) = ⌊((n : ℚ) / (d : ℚ))⌋ := by
  rw [Rat.floor_intCast_div_natCast]
  exact Int.tdiv_eq_ediv hn (Int.natCast_nonneg d)

lemma tdiv_four_fifths (hi : Int) (h : 0 ≤ hi) :
    Int.tdiv (4 * hi) 5 = ⌊(hi : ℚ) * 0.8⌋ := by
  have harg : (hi : ℚ) * 0.8 = ((4 * hi : Int) : ℚ) / ((5 : Nat) : ℚ) := by
    push_cast
    ring
  rw [harg, ← tdiv_natCast_eq_floor (4 * hi) 5 (by omega)]
  norm_num

lemma tdiv_six_fifths (lo : Int) (h : 0 ≤ lo) :
    Int.tdiv (6 * lo) 5 = ⌊(lo : ℚ) * 1.2⌋ := by
  have harg : (lo : ℚ) * 1.2 = ((6 * lo : Int) : ℚ) / ((5 : Nat) : ℚ) := by
    push_cast
    ring
  rw [harg, ← tdiv_natCast_eq_floor (6 * lo) 5 (by omega)]
  norm_num

lemma tdiv_midpoint (lo hi : Int) (hl : 0 ≤ lo) (hh : 0 ≤ hi) :
    Int.tdiv (lo + hi) 2 = ⌊(lo : ℚ) + ((hi : ℚ) - (lo : ℚ)) / 2⌋ := by
  have harg : (lo : ℚ) + ((hi : ℚ) - (lo : ℚ)) / 2 =
      ((lo + hi : Int) : ℚ) / ((2 : Nat) : ℚ) := by
    push_cast
    ring
  rw [harg, ← tdiv_natCast_eq_floor (lo + hi) 2 (by omega)]
  norm_num

lemma processItems_all_none {α : Type}
    (predictor : α → Except PyErr (Option Int)) :
    ∀ (items : List α) (s : Int) (n : Nat),
      (∀ v ∈ items, predictor v = .ok none) →
      processItems predictor items s n = .ok (s, n) := by
  intro items
  induction items with
  | nil => intro s n _; rfl
  | cons v rest ih =>
    intro s n h
    have hv : predictor v = .ok none := h v (List.mem_cons_self v rest)
    simp only [processItems, hv]
    exact ih s n fun w hw => h w (List.mem_cons_of_mem v hw)

lemma processItems_ok {α : Type} (predictor : α → Except PyErr (Option Int)) :
    ∀ (items : List α) (s0 : Int) (n0 : Nat) (s1 : Int) (n1 : Nat),
      processItems predictor items s0 n0 = .ok (s1, n1) →
      s1 = s0 + (definedEstimates predictor items).sum ∧
      n1 = n0 + (definedEstimates predictor items).length := by
  intro items
  induction items with
  | nil =>
    intro s0 n0 s1 n1 h
    simp only [processItems, Except.ok.injEq, Prod.mk.injEq] at h
    simp [definedEstimates, h.1, h.2]
  | cons v rest ih =>
    intro s0 n0 s1 n1 h
    simp only [processItems] at h
    split at h
    · exact Except.noConfusion h
    · rename_i s hp
      have h2 := ih (s0 + s) (n0 + 1) s1 n1 h
      have hde : definedEstimates predictor (v :: rest)
          = s :: definedEstimates predictor rest := by
        simp [definedEstimates, List.filterMap_cons, hp]
      rw [hde]
      refine ⟨?_, ?_⟩
      · rw [h2.1, List.sum_cons]; ring
      · rw [h2.2, List.length_cons]; omega
    · rename_i hp
      have hde : definedEstimates predictor (v :: rest)
          = definedEstimates predictor rest := by
        simp [definedEstimates, List.filterMap_cons, hp]
      rw [hde]
      exact ih s0 n0 s1 n1 h

lemma hhFetchLoop_found {α : Type} :
    ∀ (script : List (HHResponse α)) (page pages : Nat) (accItems : List α)
      (accFound : Nat) (items : List α) (found : Nat),
      accFound = accItems.length →
      hhFetchLoop script page pages accItems accFound = some (items, found) →
      found = items.length := by
  intro script
  induction script with
  | nil =>
    intro page pages accItems accFound items found hacc h
    simp only [hhFetchLoop] at h
    split at h
    · exact Option.noConfusion h
    · injection h with h
      simp only [Prod.mk.injEq] at h
      obtain ⟨h1, h2⟩ := h
      subst h1
      subst h2
      exact hacc
  | cons r rest ih =>
    intro page pages accItems accFound items found hacc h
    simp only [hhFetchLoop] at h
    split at h
    · exact ih _ _ _ _ _ _ (by simp [hacc]) h
    · injection h with h
      simp only [Prod.mk.injEq] at h
      obtain ⟨h1, h2⟩ := h
      subst h1
      subst h2
      exact hacc

lemma sjFetchLoop_found {α : Type} :
    ∀ (script : List (SJResponse α)) (isMore : Bool) (page : Nat)
      (accItems : List α) (accFound calls : Nat) (items : List α)
      (found calls2 : Nat),
      accFound = accItems.length →
      sjFetchLoop script isMore page accItems accFound calls
        = some (items, found, calls2) →
      found = items.length := by
  intro script
  induction script with
  | nil =>
    intro isMore page accItems accFound calls items found calls2 hacc h
    simp only [sjFetchLoop] at h
    split at h
    · exact Option.noConfusion h
    · injection h with h
      simp only [Prod.mk.injEq] at h
      obtain ⟨h1, h2, h3⟩ := h
      subst h1
      subst h2
      exact hacc
  | cons r rest ih =>
    intro isMore page accItems accFound calls items found calls2 hacc h
    simp only [sjFetchLoop] at h
    split at h
    · exact ih _ _ _ _ _ _ _ _ (by simp [hacc]) h
    · injection h with h
      simp only [Prod.mk.injEq] at h
      obtain ⟨h1, h2, h3⟩ := h
      subst h1
      subst h2
      exact hacc

lemma dictInsert_mem {β : Type} :
    ∀ (d : List (String × β)) (k : String) (v : β) (e : String × β),
      e ∈ dictInsert d k v → e ∈ d ∨ e = (k, v) := by
  intro d
  induction d with
  | nil =>
    intro k v e he
    simp [dictInsert] at he
    exact Or.inr he
  | cons p rest ih =>
    intro k v e he
    obtain ⟨k2, v2⟩ := p
    simp only [dictInsert] at he
    split at he
    · rcases List.mem_cons.mp he with h | h
      · exact Or.inr h
      · exact Or.inl (List.mem_cons_of_mem _ h)
    · rcases List.mem_cons.mp he with h | h
      · exact Or.inl (h ▸ List.mem_cons_self _ _)
      · rcases ih k v e h with h2 | h2
        · exact Or.inl (List.mem_cons_of_mem _ h2)
        · exact Or.inr h2

lemma hhFetchLanguages_found {α : Type} (script : String → List (HHResponse α)) :
    ∀ (languages : List String) (acc out : List (String × LangVacancies α)),
      (∀ e ∈ acc, e.2.found = e.2.items.length) →
      hhFetchLanguages script languages acc = some out →
      ∀ e ∈ out, e.2.found = e.2.items.length := by
  intro languages
  induction languages with
  | nil =>
    intro acc out hacc h
    simp only [hhFetchLanguages] at h
    injection h with h
    subst h
    exact hacc
  | cons language rest ih =>
    intro acc out hacc h
    simp only [hhFetchLanguages] at h
    split at h
    · exact Option.noConfusion h
    · rename_i items found hloop
      refine ih _ out ?_ h
      intro e he
      rcases dictInsert_mem acc language ⟨items, found⟩ e he with h2 | h2
      · exact hacc e h2
      · rw [h2]
        exact hhFetchLoop_found (script language) 0 1 [] 0 items found rfl hloop

lemma sjFetchLanguages_found {α : Type} (script : String → List (SJResponse α)) :
    ∀ (languages : List String) (acc out : List (String × LangVacancies α)),
      (∀ e ∈ acc, e.2.found = e.2.items.length) →
      sjFetchLanguages script languages acc = some out →
      ∀ e ∈ out, e.2.found = e.2.items.length := by
  intro languages
  induction languages with
  | nil =>
    intro acc out hacc h
    simp only [sjFetchLanguages] at h
    injection h with h
    subst h
    exact hacc
  | cons language rest ih =>
    intro acc out hacc h
    simp only [sjFetchLanguages] at h
    split at h
    · exact Option.noConfusion h
    · rename_i items found calls hloop
      refine ih _ out ?_ h
      intro e he
      rcases dictInsert_mem acc language ⟨items, found⟩ e he with h2 | h2
      · exact hacc e h2
      · rw [h2]
        exact sjFetchLoop_found (script language) true 0 [] 0 0 items found
          calls rfl hloop

lemma collect_average_salary_ok {α : Type}
    (predictor : α → Except PyErr (Option Int)) :
    ∀ (vacancies : List (String × LangVacancies α))
      (stats : List (String × LangStat)),
      collect_average_salary vacancies predictor = .ok stats →
      List.Forall₂ (StatMatches predictor) vacancies stats := by
  intro vacancies
  induction vacancies with
  | nil =>
    intro stats h
    simp only [collect_average_salary, Except.ok.injEq] at h
    subst h
    exact List.Forall₂.nil
  | cons entry rest ih =>
    intro stats h
    obtain ⟨language, languageVacancies⟩ := entry
    simp only [collect_average_salary] at h
    split at h
    · exact Except.noConfusion h
    · rename_i sumSalary salaryNum hp
      split at h
      · exact Except.noConfusion h
      · rename_i hz
        split at h
        · exact Except.noConfusion h
        · rename_i restStats hr
          injection h with h
          subst h
          have hpi := processItems_ok predictor languageVacancies.items 0 0
            sumSalary salaryNum hp
          refine List.Forall₂.cons ?_ (ih restStats hr)
          refine ⟨rfl, rfl, ?_, ?_, ?_⟩
          · simpa using hpi.2
          · have hle : (definedEstimates predictor languageVacancies.items).length
                ≤ languageVacancies.items.length :=
              List.length_filterMap_le _ _
            simp only [StatMatches] at *
            show salaryNum ≤ languageVacancies.items.length
            omega
          · intro _
            show Int.tdiv sumSalary (salaryNum : Int) =
              Int.tdiv (definedEstimates predictor languageVacancies.items).sum
                ((salaryNum : Nat) : Int)
            rw [hpi.1, hpi.2]
            norm_num

lemma hhFetchLoop_ignores_found {α : Type} (f : HHResponse α → Nat) :
    ∀ (script : List (HHResponse α)) (page pages : Nat) (accItems : List α)
      (accFound : Nat),
      hhFetchLoop (script.map fun r => ⟨f r, r.pages, r.items⟩) page pages
          accItems accFound
        = hhFetchLoop script page pages accItems accFound := by
  intro script
  induction script with
  | nil => intro page pages accItems accFound; rfl
  | cons r rest ih =>
    intro page pages accItems accFound
    by_cases hlt : page < pages
    · simp only [List.map_cons, hhFetchLoop, if_pos hlt]
      exact ih _ _ _ _
    · simp only [List.map_cons, hhFetchLoop, if_neg hlt]

lemma hhFetchLanguages_ignores_found {α : Type}
    (script : String → List (HHResponse α)) (f : HHResponse α → Nat) :
    ∀ (languages : List String) (acc : List (String × LangVacancies α)),
      hhFetchLanguages (fun l => (script l).map fun r => ⟨f r, r.pages, r.items⟩)
          languages acc
        = hhFetchLanguages script languages acc := by
  intro languages
  induction languages with
  | nil => intro acc; rfl
  | cons language rest ih =>
    intro acc
    simp only [hhFetchLanguages, hhFetchLoop_ignores_found]
    cases hhFetchLoop (script language) 0 1 [] 0 with
    | none => rfl
    | some r => exact ih _

/-- C1, counterexample: on a ResultSet entry with an empty items list and
`found = 5`, `collect_average_salary` does not return the claimed
`{vacancies_found: 5, vacancies_processed: 0, average_salary: 0}` — it
fails with a `ZeroDivisionError` from `int(sum_salary / salary_num)`. -/
theorem c1_counterexample :
    collect_average_salary [("Python", (⟨[], 5⟩ : LangVacancies HHVacancy))]
        predict_hh_rub_salary
      = .error .zeroDivisionError ∧
    collect_average_salary [("Python", (⟨[], 5⟩ : LangVacancies HHVacancy))]
        predict_hh_rub_salary
      ≠ .ok [("Python", (⟨5, 0, 0⟩ : LangStat))] := by
  refine ⟨rfl, ?_⟩
  intro h
  exact Except.noConfusion h

/-- C1, amended: when a term's listings yield no defined estimate — every
item's estimate is unknown, the empty items list included —
`collect_average_salary` raises `ZeroDivisionError` on that term instead
of emitting `average_salary = 0`; consequently no ResultSet containing
such a term ever yields statistics. -/
theorem c1_zero_processed_raises :
    (∀ {α : Type} (language : String) (lv : LangVacancies α)
      (predictor : α → Except PyErr (Option Int)),
      (∀ v ∈ lv.items, predictor v = .ok none) →
      collect_average_salary [(language, lv)] predictor
        = .error .zeroDivisionError) ∧
    (∀ {α : Type} (vacancies : List (String × LangVacancies α))
      (predictor : α → Except PyErr (Option Int))
      (entry : String × LangVacancies α), entry ∈ vacancies →
      (∀ v ∈ entry.2.items, predictor v = .ok none) →
      ∀ stats, collect_average_salary vacancies predictor ≠ .ok stats) := by
  constructor
  · intro α language lv predictor hnone
    simp only [collect_average_salary]
    rw [processItems_all_none predictor lv.items 0 0 hnone]
    rfl
  · intro α vacancies predictor entry
    induction vacancies with
    | nil => intro hmem; exact absurd hmem (List.not_mem_nil entry)
    | cons head rest ih =>
      intro hmem hnone stats hok
      obtain ⟨language, lv⟩ := head
      simp only [collect_average_salary] at hok
      split at hok
      · exact Except.noConfusion hok
      · rename_i sumSalary salaryNum hp
        split at hok
        · exact Except.noConfusion hok
        · rename_i hz
          split at hok
          · exact Except.noConfusion hok
          · rename_i restStats hr
            rcases List.mem_cons.mp hmem with heq | hmemrest
            · subst heq
              have hall := processItems_all_none predictor lv.items 0 0 hnone
              have h2 := hall.symm.trans hp
              injection h2 with h2
              simp only [Prod.mk.injEq] at h2
              exact hz h2.2.symm
            · exact ih hmemrest hnone restStats hr

/-- C1, witness for the amended theorem: the spec's empty-items scenario,
a nonempty term whose only listing has a foreign currency, and the failure
of that ResultSet to produce the statistics the original claim expects. -/
theorem c1_zero_processed_raises_witness :
    collect_average_salary [("Python", (⟨[], 5⟩ : LangVacancies SJVacancy))]
        predict_sj_rub_salary
      = .error .zeroDivisionError ∧
    collect_average_salary
        [("Python", (⟨[usdVac], 1⟩ : LangVacancies HHVacancy))]
        predict_hh_rub_salary
      = .error .zeroDivisionError ∧
    collect_average_salary
        [("Python", (⟨[usdVac], 1⟩ : LangVacancies HHVacancy))]
        predict_hh_rub_salary
      ≠ .ok [("Python", (⟨1, 0, 0⟩ : LangStat))] :=
  ⟨c1_zero_processed_raises.1 "Python" ⟨[], 5⟩ predict_sj_rub_salary
      (by intro v hv; exact absurd hv (List.not_mem_nil v)),
    c1_zero_processed_raises.1 "Python" ⟨[usdVac], 1⟩ predict_hh_rub_salary
      (by intro v hv; rw [List.mem_singleton] at hv; subst hv; rfl),
    c1_zero_processed_raises.2
      [("Python", (⟨[usdVac], 1⟩ : LangVacancies HHVacancy))]
      predict_hh_rub_salary ("Python", ⟨[usdVac], 1⟩)
      (List.mem_singleton.mpr rfl)
      (by intro v hv; rw [List.mem_singleton] at hv; subst hv; rfl)
      [("Python", (⟨1, 0, 0⟩ : LangStat))]⟩

/-- C2, counterexample: the SuperJob estimator never inspects the currency
field, so a listing with currency `"USD"` and bounds 1000/2000 gets the
defined estimate 1500, not unknown. -/
theorem c2_counterexample :
    predict_sj_rub_salary ⟨.val "USD", .val 1000, .val 2000⟩
      = .ok (some 1500) ∧
    predict_sj_rub_salary ⟨.val "USD", .val 1000, .val 2000⟩ ≠ .ok none := by
  refine ⟨rfl, ?_⟩
  intro h
  exact Option.noConfusion (Except.ok.inj h)

/-- C2, amended: only the HeadHunter estimator gates on currency — whenever
the salary object is present (truthy) and its currency value reads as
anything other than `"RUR"`, it returns unknown; the SuperJob estimator's
result does not depend on the currency field at all. -/
theorem c2_currency_gate :
    (∀ (s : HHSalary) (c : Option String),
      s.isEmpty = false →
      PyField.get s.currency = .ok c →
      c ≠ some "RUR" →
      predict_hh_rub_salary ⟨.val s⟩ = .ok none) ∧
    (∀ (v : SJVacancy) (c : PyField String),
      predict_sj_rub_salary ⟨c, v.payment_from, v.payment_to⟩
        = predict_sj_rub_salary v) := by
  constructor
  · intro s c hne hc hcur
    simp [predict_hh_rub_salary, hne, hc, hcur]
  · intro v c
    cases v
    rfl

/-- C2, witness: the HeadHunter estimator rejects the USD listing of the
spec scenario, and the SuperJob estimator ignores a currency swap on it. -/
theorem c2_currency_gate_witness :
    predict_hh_rub_salary ⟨.val ⟨.val "USD", .val 500, .val 600⟩⟩
      = .ok none ∧
    predict_sj_rub_salary ⟨.val "RUB", .val 1000, .val 2000⟩
      = predict_sj_rub_salary ⟨.val "USD", .val 1000, .val 2000⟩ :=
  ⟨c2_currency_gate.1 ⟨.val "USD", .val 500, .val 600⟩ (some "USD") rfl rfl
      (by decide),
    c2_currency_gate.2 ⟨.val "USD", .val 1000, .val 2000⟩ (.val "RUB")⟩

/-- C3, counterexample: the HeadHunter estimator does not treat a bound of
exactly 0 as absent — with `from = 0, to = 0` (currency RUR) it returns
the defined estimate 0 rather than unknown. -/
theorem c3_counterexample :
    predict_hh_rub_salary ⟨.val ⟨.val "RUR", .val 0, .val 0⟩⟩
      = .ok (some 0) ∧
    predict_hh_rub_salary ⟨.val ⟨.val "RUR", .val 0, .val 0⟩⟩ ≠ .ok none := by
  refine ⟨rfl, ?_⟩
  intro h
  exact Option.noConfusion (Except.ok.inj h)

/-- C3, amended: only the SuperJob estimator treats a bound of exactly 0
like an absent bound (`(0,0) ↦ unknown`, `(0,1000) ↦ 800`,
`(1000,0) ↦ 1200`); the HeadHunter estimator treats 0 as a provided bound
(`(0,0) ↦ 0`, `(0,1000) ↦ 500`, `(1000,0) ↦ 500`), recognising only
`None` as absent. -/
theorem c3_zero_bounds :
    predict_sj_rub_salary ⟨.null, .val 0, .val 0⟩ = .ok none ∧
    predict_sj_rub_salary ⟨.null, .val 0, .val 1000⟩ = .ok (some 800) ∧
    predict_sj_rub_salary ⟨.null, .val 1000, .val 0⟩ = .ok (some 1200) ∧
    predict_hh_rub_salary ⟨.val ⟨.val "RUR", .val 0, .val 0⟩⟩
      = .ok (some 0) ∧
    predict_hh_rub_salary ⟨.val ⟨.val "RUR", .val 0, .val 1000⟩⟩
      = .ok (some 500) ∧
    predict_hh_rub_salary ⟨.val ⟨.val "RUR", .val 1000, .val 0⟩⟩
      = .ok (some 500) :=
  ⟨rfl, rfl, rfl, rfl, rfl, rfl⟩

/-- C4, counterexample: the HeadHunter fetcher does not copy the response's
reported total (`found = 100` on the single page) into the term's entry —
it stores 1, the number of listings actually received. -/
theorem c4_counterexample :
    get_all_hh_vacancies (fun _ => [(⟨100, 1, [7]⟩ : HHResponse Nat)])
        ["Python"]
      = some [("Python", ⟨[7], 1⟩)] ∧
    (1 : Nat) ≠ 100 := by
  refine ⟨rfl, ?_⟩
  decide

/-- C4, amended: the HeadHunter fetcher accumulates each term's `found` as
a running count of the listings actually received (so it ends up equal to
the number of stored items), and its output is unchanged by arbitrary
rewrites of the reported totals in the responses — it never reads them. -/
theorem c4_hh_found_running_count :
    (∀ {α : Type} (script : String → List (HHResponse α))
      (languages : List String) (out : List (String × LangVacancies α)),
      get_all_hh_vacancies script languages = some out →
      ∀ e ∈ out, e.2.found = e.2.items.length) ∧
    (∀ {α : Type} (script : String → List (HHResponse α))
      (f : HHResponse α → Nat) (languages : List String),
      get_all_hh_vacancies
          (fun l => (script l).map fun r => ⟨f r, r.pages, r.items⟩) languages
        = get_all_hh_vacancies script languages) := by
  constructor
  · intro α script languages out h
    exact hhFetchLanguages_found script languages [] out (by simp) h
  · intro α script f languages
    exact hhFetchLanguages_ignores_found script f languages []

/-- C4, witness for the amended theorem on a concrete one-page fetch whose
response reports a total of 100 while delivering one listing. -/
theorem c4_hh_found_running_count_witness :
    ("Python", (⟨[7], 1⟩ : LangVacancies Nat)).2.found
      = ("Python", (⟨[7], 1⟩ : LangVacancies Nat)).2.items.length ∧
    get_all_hh_vacancies
        (fun _ => [(⟨100, 1, [7]⟩ : HHResponse Nat)].map
          fun r => ⟨0, r.pages, r.items⟩) ["Python"]
      = get_all_hh_vacancies (fun _ => [(⟨100, 1, [7]⟩ : HHResponse Nat)])
          ["Python"] :=
  ⟨c4_hh_found_running_count.1 (fun _ => [(⟨100, 1, [7]⟩ : HHResponse Nat)])
      ["Python"] [("Python", ⟨[7], 1⟩)] rfl ("Python", ⟨[7], 1⟩) (by simp),
    c4_hh_found_running_count.2 (fun _ => [(⟨100, 1, [7]⟩ : HHResponse Nat)])
      (fun _ => 0) ["Python"]⟩

/-- C5: for listings in local currency, both estimators implement the
shared heuristic — only the high bound: `floor(high * 0.8)`; only the low
bound: `floor(low * 1.2)`; both bounds: `floor(low + (high - low) / 2)`;
in particular 1000/2000 gives 1500 on both platforms. Bounds are
non-negative salary amounts; a bound is "present" for HeadHunter when it
is non-`None` and for SuperJob when it is truthy. -/
theorem c5_estimate_formulas :
    (∀ hi : Int, 0 ≤ hi →
      predict_hh_rub_salary ⟨.val ⟨.val "RUR", .null, .val hi⟩⟩
        = .ok (some ⌊(hi : ℚ) * 0.8⌋)) ∧
    (∀ lo : Int, 0 ≤ lo →
      predict_hh_rub_salary ⟨.val ⟨.val "RUR", .val lo, .null⟩⟩
        = .ok (some ⌊(lo : ℚ) * 1.2⌋)) ∧
    (∀ lo hi : Int, 0 ≤ lo → 0 ≤ hi →
      predict_hh_rub_salary ⟨.val ⟨.val "RUR", .val lo, .val hi⟩⟩
        = .ok (some ⌊(lo : ℚ) + ((hi : ℚ) - (lo : ℚ)) / 2⌋)) ∧
    (∀ (c : PyField String) (hi : Int), 0 < hi →
      predict_sj_rub_salary ⟨c, .null, .val hi⟩
        = .ok (some ⌊(hi : ℚ) * 0.8⌋)) ∧
    (∀ (c : PyField String) (lo : Int), 0 < lo →
      predict_sj_rub_salary ⟨c, .val lo, .null⟩
        = .ok (some ⌊(lo : ℚ) * 1.2⌋)) ∧
    (∀ (c : PyField String) (lo hi : Int), 0 < lo → 0 < hi →
      predict_sj_rub_salary ⟨c, .val lo, .val hi⟩
        = .ok (some ⌊(lo : ℚ) + ((hi : ℚ) - (lo : ℚ)) / 2⌋)) ∧
    predict_hh_rub_salary ⟨.val ⟨.val "RUR", .val 1000, .val 2000⟩⟩
      = .ok (some 1500) ∧
    predict_sj_rub_salary ⟨.null, .val 1000, .val 2000⟩ = .ok (some 1500) := by
  refine ⟨?_, ?_, ?_, ?_, ?_, ?_, rfl, rfl⟩
  · intro hi h
    exact congrArg (fun z => Except.ok (some z)) (tdiv_four_fifths hi h)
  · intro lo h
    exact congrArg (fun z => Except.ok (some z)) (tdiv_six_fifths lo h)
  · intro lo hi hl hh
    exact congrArg (fun z => Except.ok (some z)) (tdiv_midpoint lo hi hl hh)
  · intro c hi h
    simp only [predict_sj_rub_salary, PyField.get, falsyInt, if_true]
    rw [if_neg (by simpa using Int.ne_of_gt h)]
    simpa using tdiv_four_fifths hi (le_of_lt h)
  · intro c lo h
    simp only [predict_sj_rub_salary, PyField.get, falsyInt]
    rw [if_neg (by simpa using Int.ne_of_gt h)]
    simpa using tdiv_six_fifths lo (le_of_lt h)
  · intro c lo hi hl hh
    simp only [predict_sj_rub_salary, PyField.get, falsyInt]
    rw [if_neg (by simpa using Int.ne_of_gt hl),
      if_neg (by simpa using Int.ne_of_gt hh)]
    simpa using tdiv_midpoint lo hi (le_of_lt hl) (le_of_lt hh)

/-- C5, witness at the spec's concrete bounds. -/
theorem c5_estimate_formulas_witness :
    predict_hh_rub_salary ⟨.val ⟨.val "RUR", .null, .val 1000⟩⟩
      = .ok (some ⌊((1000 : Int) : ℚ) * 0.8⌋) ∧
    predict_sj_rub_salary ⟨.null, .val 1000, .val 2000⟩
      = .ok (some ⌊((1000 : Int) : ℚ)
          + (((2000 : Int) : ℚ) - ((1000 : Int) : ℚ)) / 2⌋) :=
  ⟨c5_estimate_formulas.1 1000 (by norm_num),
    c5_estimate_formulas.2.2.2.2.2.1 .null 1000 2000 (by norm_num)
      (by norm_num)⟩

/-- C6: whenever `collect_average_salary` returns statistics, they match
the ResultSet entrywise: same term in the same order, `vacancies_found`
copied verbatim, `vacancies_processed` the count of listings with a
defined estimate (hence at most the item count), and — the processed count
being positive — the average the truncated mean of the defined estimates;
and the two-listing RUR/USD scenario yields
`{vacancies_found: 2, vacancies_processed: 1, average_salary: 1500}`. -/
theorem c6_aggregate_shape :
    (∀ {α : Type} (vacancies : List (String × LangVacancies α))
      (predictor : α → Except PyErr (Option Int))
      (stats : List (String × LangStat)),
      collect_average_salary vacancies predictor = .ok stats →
      List.Forall₂ (StatMatches predictor) vacancies stats) ∧
    collect_average_salary [("Python", ⟨[rurVac, usdVac], 2⟩)]
        predict_hh_rub_salary
      = .ok [("Python", ⟨2, 1, 1500⟩)] := by
  constructor
  · intro α vacancies predictor stats h
    exact collect_average_salary_ok predictor vacancies stats h
  · rfl

/-- C6, witness at the spec's two-listing scenario. -/
theorem c6_aggregate_shape_witness :
    List.Forall₂ (StatMatches predict_hh_rub_salary)
      [("Python", ⟨[rurVac, usdVac], 2⟩)] [("Python", ⟨2, 1, 1500⟩)] :=
  c6_aggregate_shape.1 [("Python", ⟨[rurVac, usdVac], 2⟩)]
    predict_hh_rub_salary [("Python", ⟨2, 1, 1500⟩)] c6_aggregate_shape.2

/-- C7: fetcher continuation. Platform A, with every response declaring
`pages = 3` and pages of 100, 100 and 37 listings, stores 237 items (and a
provided fourth page is not consumed); platform B, with `more` flags
`true, true, false`, issues exactly 3 requests. -/
theorem c7_fetch_continuation :
    (get_all_hh_vacancies (fun _ => hhContinuationScript) ["Python"]).map
        (List.map fun e => (e.1, e.2.items.length, e.2.found))
      = some [("Python", 237, 237)] ∧
    (sjFetchLoop sjContinuationScript true 0 [] 0 0).map (fun r => r.2.2)
      = some 3 :=
  ⟨rfl, rfl⟩

/-- C8, counterexample: the estimators are not total on arbitrary listing
records — a HeadHunter listing without the `salary` key and a SuperJob
listing without the payment keys raise `KeyError` instead of returning
unknown. -/
theorem c8_counterexample :
    predict_hh_rub_salary ⟨.absent⟩ = .error .keyError ∧
    predict_sj_rub_salary ⟨.null, .absent, .absent⟩ = .error .keyError :=
  ⟨rfl, rfl⟩

/-- C8, amended: each estimator is a pure function that never raises on
listings carrying the keys it dereferences (HeadHunter: `salary`, plus
`currency`/`from`/`to` inside a salary dict; SuperJob: `payment_from` and
`payment_to`): on those it always returns an integer estimate or unknown,
and `None`-valued salary fields are unknown outcomes, not errors. -/
theorem c8_estimators_total :
    (∀ v : HHVacancy, HHHasExpectedKeys v →
      ∃ r : Option Int, predict_hh_rub_salary v = .ok r) ∧
    (∀ v : SJVacancy, SJHasExpectedKeys v →
      ∃ r : Option Int, predict_sj_rub_salary v = .ok r) := by
  constructor
  · intro v h
    obtain ⟨sal⟩ := v
    cases sal with
    | absent => exact h.elim
    | null => exact ⟨none, rfl⟩
    | val s =>
      obtain ⟨hc, hf, ht⟩ := h
      obtain ⟨c, f, t⟩ := s
      cases c with
      | absent => exact absurd rfl hc
      | null => exact ⟨none, rfl⟩
      | val c0 =>
        by_cases hcur : c0 = "RUR"
        · subst hcur
          cases f with
          | absent => exact absurd rfl hf
          | null =>
            cases t with
            | absent => exact absurd rfl ht
            | null => exact ⟨none, rfl⟩
            | val hi => exact ⟨some (Int.tdiv (4 * hi) 5), rfl⟩
          | val lo =>
            cases t with
            | absent => exact absurd rfl ht
            | null => exact ⟨some (Int.tdiv (6 * lo) 5), rfl⟩
            | val hi => exact ⟨some (Int.tdiv (lo + hi) 2), rfl⟩
        · exact ⟨none, by
            simp [predict_hh_rub_salary, HHSalary.isEmpty, PyField.get, hcur]⟩
  · intro v h
    obtain ⟨cur, pf, pt⟩ := v
    obtain ⟨hf, ht⟩ := h
    cases pf with
    | absent => exact absurd rfl hf
    | null =>
      cases pt with
      | absent => exact absurd rfl ht
      | null => exact ⟨none, rfl⟩
      | val x =>
        by_cases hx : x = 0
        · subst hx
          exact ⟨none, rfl⟩
        · exact ⟨some (Int.tdiv (4 * x) 5), by
            simp [predict_sj_rub_salary, PyField.get, falsyInt, hx]⟩
    | val y =>
      by_cases hy : y = 0
      · subst hy
        cases pt with
        | absent => exact absurd rfl ht
        | null => exact ⟨none, rfl⟩
        | val x =>
          by_cases hx : x = 0
          · subst hx
            exact ⟨none, rfl⟩
          · exact ⟨some (Int.tdiv (4 * x) 5), by
              simp [predict_sj_rub_salary, PyField.get, falsyInt, hx]⟩
      · cases pt with
        | absent => exact absurd rfl ht
        | null => exact ⟨some (Int.tdiv (6 * y) 5), by
            simp [predict_sj_rub_salary, PyField.get, falsyInt, hy]⟩
        | val x =>
          by_cases hx : x = 0
          · subst hx
            exact ⟨some (Int.tdiv (6 * y) 5), by
              simp [predict_sj_rub_salary, PyField.get, falsyInt, hy]⟩
          · exact ⟨some (Int.tdiv (y + x) 2), by
              simp [predict_sj_rub_salary, PyField.get, falsyInt, hy, hx]⟩

/-- C8, witness: a `None` salary and `None` payment bounds are normal
unknown outcomes. -/
theorem c8_estimators_total_witness :
    (∃ r : Option Int, predict_hh_rub_salary ⟨.null⟩ = .ok r) ∧
    (∃ r : Option Int, predict_sj_rub_salary ⟨.null, .null, .null⟩
      = .ok r) :=
  ⟨c8_estimators_total.1 ⟨.null⟩ trivial,
    c8_estimators_total.2 ⟨.null, .null, .null⟩ ⟨by simp, by simp⟩⟩

/-- C9: `collect_average_salary` is a pure function of the ResultSet and
the predictor (it never mutates its input), so two runs on the same
ResultSet give identical statistics. -/
theorem c9_aggregate_deterministic {α : Type}
    (vacancies : List (String × LangVacancies α))
    (predictor : α → Except PyErr (Option Int))
    (r1 r2 : Except PyErr (List (String × LangStat)))
    (h1 : collect_average_salary vacancies predictor = r1)
    (h2 : collect_average_salary vacancies predictor = r2) : r1 = r2 :=
  h1.symm.trans h2

/-- C9, witness: rerunning the aggregation of the two-listing scenario
reproduces its statistics. -/
theorem c9_aggregate_deterministic_witness :
    collect_average_salary [("Python", ⟨[rurVac, usdVac], 2⟩)]
        predict_hh_rub_salary
      = Except.ok [("Python", (⟨2, 1, 1500⟩ : LangStat))] :=
  c9_aggregate_deterministic [("Python", ⟨[rurVac, usdVac], 2⟩)]
    predict_hh_rub_salary _ _ rfl rfl

/-- C10: in the output of both fetchers every term's entry satisfies
`found = len(items)`: both platforms accumulate `found` as a running count
of the listings actually received. -/
theorem c10_found_eq_items_length :
    (∀ {α : Type} (script : String → List (HHResponse α))
      (languages : List String) (out : List (String × LangVacancies α)),
      get_all_hh_vacancies script languages = some out →
      ∀ e ∈ out, e.2.found = e.2.items.length) ∧
    (∀ {α : Type} (script : String → List (SJResponse α))
      (languages : List String) (out : List (String × LangVacancies α)),
      get_all_sj_vacancies script languages = some out →
      ∀ e ∈ out, e.2.found = e.2.items.length) := by
  constructor
  · intro α script languages out h
    exact hhFetchLanguages_found script languages [] out (by simp) h
  · intro α script languages out h
    exact sjFetchLanguages_found script languages [] out (by simp) h

/-- C10, witness on one-page fetches of both platforms. -/
theorem c10_found_eq_items_length_witness :
    ("Python", (⟨[0], 1⟩ : LangVacancies Nat)).2.found
      = ("Python", (⟨[0], 1⟩ : LangVacancies Nat)).2.items.length ∧
    ("Python", (⟨[5, 5], 2⟩ : LangVacancies Nat)).2.found
      = ("Python", (⟨[5, 5], 2⟩ : LangVacancies Nat)).2.items.length :=
  ⟨c10_found_eq_items_length.1 (fun _ => [(⟨9, 1, [0]⟩ : HHResponse Nat)])
      ["Python"] [("Python", ⟨[0], 1⟩)] rfl ("Python", ⟨[0], 1⟩) (by simp),
    c10_found_eq_items_length.2
      (fun _ => [(⟨9, false, [5, 5]⟩ : SJResponse Nat)])
      ["Python"] [("Python", ⟨[5, 5], 2⟩)] rfl ("Python", ⟨[5, 5], 2⟩)
      (by simp)⟩
